import Mathlib

/-!
Verification of the TTN → InfluxDB bridge (ttn-influx).

The development shallowly embeds the most recent revision of the bridge
process (the revision with the watchdog "Option B", the truthiness guards on
`devId`/`decoded`, and the per-device `pm10` field rename).  JavaScript
runtime values produced by `JSON.parse` are modelled by `JsonVal`; the
message handler, the broker lifecycle callbacks, the watchdog timer and the
process-level signal/crash handlers are modelled as one step function over
the module-level mutable state (`lastMQTTConnected`, `mqttConnected`).
JavaScript numbers are modelled as exact rationals (the source performs no
arithmetic on field values; the watchdog's division is carried out exactly).
-/

/-- A JavaScript value as produced by `JSON.parse`. -/
inductive JsonVal where
  | jnull
  | jbool (b : Bool)
  | jnum (q : Rat)
  | jstr (s : String)
  | jobj (fields : List (String × JsonVal))
  | jarr (elems : List JsonVal)

/-- JavaScript `typeof` on a parsed JSON value (`typeof null` is `"object"`). -/
def typeof : JsonVal → String
  | .jnull => "object"
  | .jbool _ => "boolean"
  | .jnum _ => "number"
  | .jstr _ => "string"
  | .jobj _ => "object"
  | .jarr _ => "object"

/-- JavaScript truthiness of a parsed JSON value (used by the `!devId` and
`!decoded` guards in the message handler). -/
def truthy : JsonVal → Bool
  | .jnull => false
  | .jbool b => b
  | .jnum q => q ≠ 0
  | .jstr s => s ≠ ""
  | .jobj _ => true
  | .jarr _ => true

mutual
/-- JavaScript string coercion of an element inside an array being joined
(`Array.prototype.toString` renders `null` as the empty string). -/
def jsElemString : JsonVal → String
  | .jnull => ""
  | .jbool b => cond b "true" "false"
  | .jnum q => if q.den = 1 then toString q.num else toString q
  | .jstr s => s
  | .jobj _ => "[object Object]"
  | .jarr l => jsArrJoin l
/-- Comma-join of an array's elements, as JavaScript `Array.prototype.toString`. -/
def jsArrJoin : List JsonVal → String
  | [] => ""
  | [v] => jsElemString v
  | v :: rest => jsElemString v ++ "," ++ jsArrJoin rest
end

/-- JavaScript `String(v)` coercion, as used by the template literal
`` `pm10_${devId}` `` in the source. -/
def jsToString : JsonVal → String
  | .jnull => "null"
  | .jbool b => cond b "true" "false"
  | .jnum q => if q.den = 1 then toString q.num else toString q
  | .jstr s => s
  | .jobj _ => "[object Object]"
  | .jarr l => jsArrJoin l

/-- JavaScript property access `v.k`: defined only on objects (parsed JSON
objects have unique keys, so first-match lookup agrees with the runtime);
on every other value the properties read by the bridge are `undefined`,
modelled as `none`. -/
def jget : JsonVal → String → Option JsonVal
  | .jobj l, k => l.lookup k
  | _, _ => none

/-- Optional chaining `v?.k`: `undefined`/`null` short-circuits to `undefined`. -/
def jchain (v : Option JsonVal) (k : String) : Option JsonVal :=
  match v with
  | none => none
  | some x => jget x k

/-- `Object.entries`: key/value pairs of an object, index/value pairs of an
array, empty for primitives (the handler only reaches this after the
`typeof decoded === "object"` guard). -/
def jsEntries : JsonVal → List (String × JsonVal)
  | .jobj l => l
  | .jarr l => ((List.range l.length).zip l).map (fun iv => (toString iv.1, iv.2))
  | _ => []

/-- One point handed to the Influx write API: measurement name, tag list and
float-field list (`writeApi.useDefaultTags` adds `host` outside the handler
and is not part of the per-message logic). -/
structure MetricPoint where
  measurement : String
  tags : List (String × JsonVal)
  fields : List (String × Rat)

/-- JavaScript object-property assignment on the point's field map: an
existing key is updated in place, a new key is appended. -/
def setField : List (String × Rat) → String → Rat → List (String × Rat)
  | [], k, v => [(k, v)]
  | (k', v') :: rest, k, v =>
      if k' = k then (k, v) :: rest else (k', v') :: setField rest k v

/-- `point.floatField(name, value)` (the handler only calls it on values that
passed `typeof value === "number"`, which are finite, so the library's
non-finite throw path is unreachable). -/
def MetricPoint.floatField (p : MetricPoint) (k : String) (v : Rat) : MetricPoint :=
  { p with fields := setField p.fields k v }

/-- The per-device pm10 field name:
`devId === "mkrwan-1"` → `pm10_1`, `devId === "mkrwan-2"` → `pm10_2`,
otherwise the template literal `` `pm10_${devId}` `` (strict equality against
a string only holds for strings; any other value is coerced by the template). -/
def pm10FieldName (devId : JsonVal) : String :=
  match devId with
  | .jstr s =>
      if s = "mkrwan-1" then "pm10_1"
      else if s = "mkrwan-2" then "pm10_2"
      else "pm10_" ++ s
  | v => "pm10_" ++ jsToString v

/-- The dynamic field loop of the handler:
`for ([key, value] of Object.entries(decoded))`, skipping `key === "pm10"`
and adding `floatField(key, value)` for `typeof value === "number"`. -/
def addFields (p : MetricPoint) : List (String × JsonVal) → MetricPoint
  | [] => p
  | (k, v) :: rest =>
      if k = "pm10" then addFields p rest
      else
        match v with
        | .jnum q => addFields (p.floatField k q) rest
        | _ => addFields p rest

/-- Point construction for one accepted message:
`new Point("air_quality").tag("device", devId)`, then the pm10 branch
(`decoded.pm10 !== undefined && typeof decoded.pm10 === "number"`, i.e. the
lookup yields a number), then the dynamic field loop. -/
def buildPoint (devId decoded : JsonVal) : MetricPoint :=
  let p : MetricPoint := { measurement := "air_quality", tags := [("device", devId)], fields := [] }
  let p :=
    match jget decoded "pm10" with
    | some (.jnum q) => p.floatField (pm10FieldName devId) q
    | _ => p
  addFields p (jsEntries decoded)

/-- The second guard of the message handler and the rest of its body:
`if (!decoded || typeof decoded !== "object") return;` — a surviving
message yields the point handed to `writeApi.writePoint`. -/
def processDecoded (devId : JsonVal) (dec : Option JsonVal) : Option MetricPoint :=
  match dec with
  | none => none
  | some decoded =>
      if truthy decoded = false ∨ typeof decoded ≠ "object" then none
      else some (buildPoint devId decoded)

/-- The first guard of the message handler and the rest of its body:
`if (!devId) return;` (an absent `device_id` is `undefined`, hence falsy). -/
def processDevId (json : JsonVal) (dev : Option JsonVal) : Option MetricPoint :=
  match dev with
  | none => none
  | some devId =>
      if truthy devId = false then none
      else processDecoded devId (jchain (jget json "uplink_message") "decoded_payload")

/-- The body of `mqttClient.on("message", ...)` after the timestamp update:
`raw = none` models a payload `JSON.parse` throws on (caught by the outer
try/catch); otherwise the guard sequence on
`json?.end_device_ids?.device_id` and `json?.uplink_message?.decoded_payload`
runs. -/
def processMessage (raw : Option JsonVal) : Option MetricPoint :=
  match raw with
  | none => none
  | some json => processDevId json (jchain (jget json "end_device_ids") "device_id")

/-- The module-level mutable state shared by the broker callbacks and the
watchdog. -/
structure St where
  lastMQTTConnected : Nat
  mqttConnected : Bool

/-- `let lastMQTTConnected = 0; let mqttConnected = false;` -/
def initState : St := { lastMQTTConnected := 0, mqttConnected := false }

/-- The externally observable action of one event: nothing, a point handed to
the sink, or a `process.exit(code)`. -/
inductive Act where
  | none
  | write (p : MetricPoint)
  | exit (code : Nat)

/-- Events delivered to the process: broker lifecycle callbacks (`connect`
carries `Date.now()`), a received message (`Date.now()`, the parse result,
and whether `writeApi.writePoint` throws), a watchdog tick (`Date.now()`),
POSIX signals, and the global crash handlers. -/
inductive Event where
  | connect (now : Nat)
  | reconnect
  | offline
  | close
  | ended
  | error
  | message (now : Nat) (raw : Option JsonVal) (sinkThrows : Bool)
  | watchdogTick (now : Nat)
  | sigint
  | sigterm
  | uncaughtException
  | unhandledRejection

/-- `WATCHDOG_MINUTES = 5`. -/
def WATCHDOG_MINUTES : Rat := 5

/-- One watchdog tick: `minutesSinceConnect = (Date.now() - lastMQTTConnected) / 60000`;
exit with code 1 iff `!mqttConnected && lastMQTTConnected > 0 &&
minutesSinceConnect > WATCHDOG_MINUTES`. -/
def watchdogCheck (s : St) (now : Nat) : Act :=
  let minutesSinceConnect : Rat := ((now : Rat) - (s.lastMQTTConnected : Rat)) / 60000
  if s.mqttConnected = false ∧ 0 < s.lastMQTTConnected ∧ WATCHDOG_MINUTES < minutesSinceConnect
  then Act.exit 1
  else Act.none

/-- The process as a step function: the effect of each event on the shared
state, together with its observable action. -/
def step (s : St) : Event → St × Act
  | .connect now => ({ lastMQTTConnected := now, mqttConnected := true }, Act.none)
  | .reconnect => (s, Act.none)
  | .offline => ({ s with mqttConnected := false }, Act.none)
  | .close => ({ s with mqttConnected := false }, Act.none)
  | .ended => ({ s with mqttConnected := false }, Act.none)
  | .error => (s, Act.none)
  | .message now raw sinkThrows =>
      let s' := { s with lastMQTTConnected := now }
      match processMessage raw with
      | none => (s', Act.none)
      | some p => (s', if sinkThrows then Act.none else Act.write p)
  | .watchdogTick now => (s, watchdogCheck s now)
  | .sigint => (s, Act.exit 0)
  | .sigterm => (s, Act.exit 0)
  | .uncaughtException => (s, Act.exit 1)
  | .unhandledRejection => (s, Act.exit 1)

/-- Run a sequence of events from a state, keeping only the state. -/
def runEvents (s : St) (es : List Event) : St :=
  es.foldl (fun s e => (step s e).1) s

/-- Discriminator for the two events whose handlers assign `lastMQTTConnected`. -/
def touchesLast : Event → Bool
  | .connect _ => true
  | .message _ _ _ => true
  | _ => false

/-- The `if (!devId)` guard taken, as a predicate on the parsed payload. -/
def failsDevIdGuard (j : JsonVal) : Bool :=
  match jchain (jget j "end_device_ids") "device_id" with
  | none => true
  | some v => !(truthy v)

/-- The `if (!decoded || typeof decoded !== "object")` guard taken. -/
def failsDecodedGuard (j : JsonVal) : Bool :=
  match jchain (jget j "uplink_message") "decoded_payload" with
  | none => true
  | some v => !(truthy v) || !(typeof v == "object")

/-- Characterization of the dynamic field loop's contribution: the non-`pm10`
entries of the decoded object whose values are numbers, in order. -/
def numericFields (l : List (String × JsonVal)) : List (String × Rat) :=
  l.filterMap (fun kv =>
    if kv.1 = "pm10" then none
    else
      match kv.2 with
      | .jnum q => some (kv.1, q)
      | _ => none)

/-- Characterization of the pm10 branch's contribution: the renamed field when
the decoded object has a numeric `pm10`, nothing otherwise. -/
def pm10Part (devId : JsonVal) (l : List (String × JsonVal)) : List (String × Rat) :=
  match l.lookup "pm10" with
  | some (.jnum q) => [(pm10FieldName devId, q)]
  | _ => []

/-! ## Helper lemmas -/

theorem setField_of_not_mem (f : List (String × Rat)) (k : String) (v : Rat)
    (h : k ∉ f.map Prod.fst) : setField f k v = f ++ [(k, v)] := by
  induction f with
  | nil => rfl
  | cons kv rest ih =>
      obtain ⟨k', v'⟩ := kv
      simp only [List.map_cons, List.mem_cons] at h
      push_neg at h
      obtain ⟨h1, h2⟩ := h
      simp only [setField]
      rw [if_neg (fun hh => h1 hh.symm), ih h2]
      rfl

theorem addFields_fields (l : List (String × JsonVal)) : ∀ (p : MetricPoint),
    (l.map Prod.fst).Nodup →
    (∀ k, k ∈ l.map Prod.fst → k ∉ p.fields.map Prod.fst) →
    (addFields p l).fields = p.fields ++ numericFields l := by
  induction l with
  | nil => intro p _ _; simp [addFields, numericFields]
  | cons kv rest ih =>
      intro p hnd hdisj
      obtain ⟨k, v⟩ := kv
      simp only [List.map_cons, List.nodup_cons] at hnd
      obtain ⟨hknotin, hndrest⟩ := hnd
      by_cases hk : k = "pm10"
      · subst hk
        simp only [addFields, if_true]
        rw [ih p hndrest (fun k' hk' => hdisj k' (by simp [hk']))]
        simp [numericFields, List.filterMap_cons]
      · cases v with
        | jnum q =>
            simp only [addFields]
            rw [if_neg hk]
            have hknotp : k ∉ p.fields.map Prod.fst := hdisj k (by simp)
            have hflds : (p.floatField k q).fields = p.fields ++ [(k, q)] := by
              simp [MetricPoint.floatField, setField_of_not_mem _ _ _ hknotp]
            rw [ih (p.floatField k q) hndrest (fun k' hk' => by
              rw [hflds]
              simp only [List.map_append, List.mem_append]
              rintro (hmem | hmem)
              · exact hdisj k' (by simp [hk']) hmem
              · simp only [List.map_cons, List.map_nil, List.mem_singleton] at hmem
                exact hknotin (hmem ▸ hk'))]
            rw [hflds]
            simp [numericFields, List.filterMap_cons, hk, List.append_assoc]
        | jnull =>
            simp only [addFields]
            rw [if_neg hk, ih p hndrest (fun k' h' => hdisj k' (by simp [h']))]
            simp [numericFields, List.filterMap_cons, hk]
        | jbool b =>
            simp only [addFields]
            rw [if_neg hk, ih p hndrest (fun k' h' => hdisj k' (by simp [h']))]
            simp [numericFields, List.filterMap_cons, hk]
        | jstr s =>
            simp only [addFields]
            rw [if_neg hk, ih p hndrest (fun k' h' => hdisj k' (by simp [h']))]
            simp [numericFields, List.filterMap_cons, hk]
        | jobj o =>
            simp only [addFields]
            rw [if_neg hk, ih p hndrest (fun k' h' => hdisj k' (by simp [h']))]
            simp [numericFields, List.filterMap_cons, hk]
        | jarr a =>
            simp only [addFields]
            rw [if_neg hk, ih p hndrest (fun k' h' => hdisj k' (by simp [h']))]
            simp [numericFields, List.filterMap_cons, hk]

theorem buildPoint_fields (devId : JsonVal) (l : List (String × JsonVal))
    (hnd : (l.map Prod.fst).Nodup)
    (hcoll : pm10FieldName devId ∉ l.map Prod.fst) :
    (buildPoint devId (.jobj l)).fields = pm10Part devId l ++ numericFields l := by
  unfold buildPoint pm10Part
  simp only [jget, jsEntries]
  cases hlk : l.lookup "pm10" with
  | none =>
      simp only [hlk]
      rw [addFields_fields l _ hnd (fun k _ => by simp)]
      try rfl
  | some v =>
      cases v with
      | jnum q =>
          simp only [hlk]
          rw [addFields_fields l _ hnd (fun k hk => by
            simp only [MetricPoint.floatField, setField, List.map_cons, List.map_nil,
              List.mem_singleton]
            exact fun hh => hcoll (hh ▸ hk))]
          try rfl
      | jnull =>
          simp only [hlk]
          rw [addFields_fields l _ hnd (fun k _ => by simp)]
          try rfl
      | jbool b =>
          simp only [hlk]
          rw [addFields_fields l _ hnd (fun k _ => by simp)]
          try rfl
      | jstr s =>
          simp only [hlk]
          rw [addFields_fields l _ hnd (fun k _ => by simp)]
          try rfl
      | jobj o =>
          simp only [hlk]
          rw [addFields_fields l _ hnd (fun k _ => by simp)]
          try rfl
      | jarr a =>
          simp only [hlk]
          rw [addFields_fields l _ hnd (fun k _ => by simp)]
          try rfl

theorem mem_numericFields (k : String) (l : List (String × JsonVal)) :
    k ∈ (numericFields l).map Prod.fst ↔ k ≠ "pm10" ∧ ∃ q, (k, JsonVal.jnum q) ∈ l := by
  unfold numericFields
  rw [List.mem_map]
  constructor
  · rintro ⟨p, hp, hpk⟩
    rw [List.mem_filterMap] at hp
    obtain ⟨⟨k0, v0⟩, hmem, hf⟩ := hp
    by_cases h0 : k0 = "pm10"
    · simp [h0] at hf
    · cases v0 with
      | jnum q =>
          simp only [if_neg h0] at hf
          obtain rfl : (k0, q) = p := by simpa using hf
          exact ⟨hpk ▸ h0, q, hpk ▸ hmem⟩
      | jnull => simp [h0] at hf
      | jbool b => simp [h0] at hf
      | jstr s => simp [h0] at hf
      | jobj o => simp [h0] at hf
      | jarr a => simp [h0] at hf
  · rintro ⟨h1, q, h2⟩
    exact ⟨(k, q), List.mem_filterMap.mpr ⟨(k, .jnum q), h2, by simp [h1]⟩, rfl⟩

theorem mem_pm10Part (devId : JsonVal) (l : List (String × JsonVal)) (k : String) :
    k ∈ (pm10Part devId l).map Prod.fst ↔
      (∃ q, l.lookup "pm10" = some (.jnum q)) ∧ k = pm10FieldName devId := by
  unfold pm10Part
  cases hlk : l.lookup "pm10" with
  | none => simp
  | some v =>
      cases v with
      | jnum q => simp
      | jnull => simp
      | jbool b => simp
      | jstr s => simp
      | jobj o => simp
      | jarr a => simp

theorem step_last_of_not_touches (s : St) (e : Event) (h : touchesLast e = false) :
    (step s e).1.lastMQTTConnected = s.lastMQTTConnected := by
  cases e <;> simp_all [touchesLast, step]

theorem runEvents_last (es : List Event) : ∀ (s : St),
    (∀ e ∈ es, touchesLast e = false) →
    (runEvents s es).lastMQTTConnected = s.lastMQTTConnected := by
  induction es with
  | nil => intro s _; rfl
  | cons e rest ih =>
      intro s h
      simp only [runEvents, List.foldl_cons]
      rw [show (List.foldl (fun s e => (step s e).1) (step s e).1 rest) =
          runEvents (step s e).1 rest from rfl]
      rw [ih (step s e).1 (fun e' h' => h e' (List.mem_cons_of_mem _ h')),
        step_last_of_not_touches s e (h e (List.mem_cons_self _ _))]

/-! ## Claim theorems -/

/-- C1: On every watchdog tick, the process is terminated with a non-zero
exit only when `mqttConnected = false` and the elapsed time since
`lastMQTTConnected` exceeds the 5-minute threshold (and the exit code is 1);
a tick with `mqttConnected = true` never triggers, and a tick with
`mqttConnected = false` and a set (positive) `lastMQTTConnected` lying six
minutes in the past does trigger. -/
theorem watchdog_trigger_policy (s : St) (now : Nat) :
    (∀ c, (step s (.watchdogTick now)).2 = Act.exit c →
        s.mqttConnected = false ∧
        WATCHDOG_MINUTES < ((now : Rat) - (s.lastMQTTConnected : Rat)) / 60000 ∧ c = 1)
    ∧ (s.mqttConnected = true → (step s (.watchdogTick now)).2 = Act.none)
    ∧ (s.mqttConnected = false → 0 < s.lastMQTTConnected →
        now = s.lastMQTTConnected + 6 * 60000 →
        (step s (.watchdogTick now)).2 = Act.exit 1) := by
  refine ⟨?_, ?_, ?_⟩
  · intro c h
    simp only [step, watchdogCheck] at h
    split_ifs at h with hc
    · obtain ⟨h1, _, h3⟩ := hc
      refine ⟨h1, h3, ?_⟩
      injection h with h4
      exact h4.symm
  · intro hc
    simp [step, watchdogCheck, hc]
  · intro h1 h2 h3
    have harith : WATCHDOG_MINUTES < ((now : Rat) - (s.lastMQTTConnected : Rat)) / 60000 := by
      subst h3
      have hcast : ((s.lastMQTTConnected + 6 * 60000 : Nat) : Rat) -
          (s.lastMQTTConnected : Rat) = 360000 := by
        push_cast
        ring
      rw [hcast]
      norm_num [WATCHDOG_MINUTES]
    simp only [step, watchdogCheck]
    rw [if_pos ⟨h1, h2, harith⟩]

/-- C1 witness: a disconnected state whose last connect lies exactly six
minutes in the past is terminated with exit code 1. -/
theorem watchdog_trigger_policy_witness :
    (step { lastMQTTConnected := 60000, mqttConnected := false }
        (.watchdogTick 420000)).2 = Act.exit 1 :=
  (watchdog_trigger_policy { lastMQTTConnected := 60000, mqttConnected := false }
    420000).2.2 rfl (by decide) (by decide)

/-- C2 counterexample: the claim says no message receipt ever changes
`lastMQTTConnected`, but the handler assigns `Date.now()` to it before
processing: a message at time 1000 moves it from 5 to 1000. -/
theorem message_updates_lastConnected_cex :
    (step { lastMQTTConnected := 5, mqttConnected := true }
        (.message 1000 none false)).1.lastMQTTConnected = 1000
    ∧ (1000 : Nat) ≠ 5 := by
  exact ⟨rfl, by decide⟩

/-- C2 (amended): `lastMQTTConnected` is assigned the current time by a
connect event and by every message receipt, and is left unchanged by every
other event (reconnect, offline, close, end, error, watchdog ticks, signals,
crash handlers). -/
theorem lastConnected_update_events (s : St) (e : Event) :
    (step s e).1.lastMQTTConnected =
      (match e with
       | .connect now => now
       | .message now _ _ => now
       | _ => s.lastMQTTConnected) := by
  cases e with
  | message now raw sf =>
      simp only [step]
      cases processMessage raw <;> rfl
  | connect now => rfl
  | reconnect => rfl
  | offline => rfl
  | close => rfl
  | ended => rfl
  | error => rfl
  | watchdogTick now => rfl
  | sigint => rfl
  | sigterm => rfl
  | uncaughtException => rfl
  | unhandledRejection => rfl

/-- C3: a connect event sets `mqttConnected = true` and refreshes
`lastMQTTConnected` to the current time; offline, close and end events set
`mqttConnected = false` and leave `lastMQTTConnected` unchanged. -/
theorem connect_close_state_transition (s : St) (now : Nat) :
    step s (.connect now) = ({ lastMQTTConnected := now, mqttConnected := true }, Act.none)
    ∧ (step s .offline).1 = { lastMQTTConnected := s.lastMQTTConnected, mqttConnected := false }
    ∧ (step s .close).1 = { lastMQTTConnected := s.lastMQTTConnected, mqttConnected := false }
    ∧ (step s .ended).1 = { lastMQTTConnected := s.lastMQTTConnected, mqttConnected := false } :=
  ⟨rfl, rfl, rfl, rfl⟩

/-- C10: starting from the initial state (`lastMQTTConnected = 0`), as long
as no connect and no message event has occurred, no watchdog tick produces
any exit, regardless of the tick's time: the trigger requires
`lastMQTTConnected > 0`. -/
theorem watchdog_silent_before_first_connect (es : List Event) (now : Nat)
    (h : ∀ e ∈ es, touchesLast e = false) :
    (step (runEvents initState es) (.watchdogTick now)).2 = Act.none := by
  have hlast : (runEvents initState es).lastMQTTConnected = 0 :=
    runEvents_last es initState h
  simp only [step, watchdogCheck, hlast]
  rw [if_neg]
  rintro ⟨-, h2, -⟩
  exact lt_irrefl 0 h2

/-- C10 witness: after an offline event, an (inert) watchdog tick and a
transport error — but no connect or message — a very late watchdog tick
still exits nothing. -/
theorem watchdog_silent_before_first_connect_witness :
    (step (runEvents initState [Event.offline, Event.watchdogTick 900000000, Event.error])
        (.watchdogTick 2000000000)).2 = Act.none :=
  watchdog_silent_before_first_connect
    [Event.offline, Event.watchdogTick 900000000, Event.error] 2000000000 (by decide)

theorem step_message_act (s : St) (now : Nat) (raw : Option JsonVal) (sf : Bool) :
    (step s (.message now raw sf)).2 =
      (match processMessage raw with
       | none => Act.none
       | some p => if sf then Act.none else Act.write p) := by
  simp only [step]
  cases processMessage raw <;> rfl

/-- C4: the mapper writes a numeric `pm10` under the device-keyed name —
`pm10_1` for `mkrwan-1`, `pm10_2` for `mkrwan-2`, `pm10_<deviceId>`
otherwise — and when `pm10` is absent or non-numeric the point's fields are
exactly the verbatim non-`pm10` numeric entries, so no pm10-derived field is
written. -/
theorem pm10_rename_policy (d : String) (l : List (String × JsonVal))
    (hnd : (l.map Prod.fst).Nodup)
    (hcoll : pm10FieldName (.jstr d) ∉ l.map Prod.fst) :
    (∀ q, l.lookup "pm10" = some (.jnum q) →
        (buildPoint (.jstr d) (.jobj l)).fields.lookup (pm10FieldName (.jstr d)) = some q)
    ∧ (d = "mkrwan-1" → pm10FieldName (.jstr d) = "pm10_1")
    ∧ (d = "mkrwan-2" → pm10FieldName (.jstr d) = "pm10_2")
    ∧ (d ≠ "mkrwan-1" → d ≠ "mkrwan-2" → pm10FieldName (.jstr d) = "pm10_" ++ d)
    ∧ ((∀ q, l.lookup "pm10" ≠ some (.jnum q)) →
        (buildPoint (.jstr d) (.jobj l)).fields = numericFields l
        ∧ ∀ k, k ∈ (buildPoint (.jstr d) (.jobj l)).fields.map Prod.fst →
            k ≠ "pm10" ∧ ∃ q, (k, JsonVal.jnum q) ∈ l) := by
  refine ⟨?_, ?_, ?_, ?_, ?_⟩
  · intro q hq
    rw [buildPoint_fields _ _ hnd hcoll]
    unfold pm10Part
    rw [hq]
    simp [List.lookup]
  · intro h
    subst h
    simp [pm10FieldName]
  · intro h
    subst h
    simp [pm10FieldName]
  · intro h1 h2
    simp [pm10FieldName, h1, h2]
  · intro hno
    have hpp : pm10Part (.jstr d) l = [] := by
      unfold pm10Part
      cases hlk : l.lookup "pm10" with
      | none => rfl
      | some v =>
          cases v with
          | jnum q => exact absurd hlk (hno q)
          | jnull => rfl
          | jbool b => rfl
          | jstr s => rfl
          | jobj o => rfl
          | jarr a => rfl
    have hfe : (buildPoint (.jstr d) (.jobj l)).fields = numericFields l := by
      rw [buildPoint_fields _ _ hnd hcoll, hpp]
      rfl
    exact ⟨hfe, fun k hk => (mem_numericFields k l).mp (hfe ▸ hk)⟩

/-- C4 witness: device `mkrwan-1` with a numeric `pm10` of 12 yields the
field `pm10_1 = 12`. -/
theorem pm10_rename_policy_witness :
    (buildPoint (.jstr "mkrwan-1")
        (.jobj [("pm10", .jnum 12), ("temp", .jnum 20)])).fields.lookup
      (pm10FieldName (.jstr "mkrwan-1")) = some 12 :=
  (pm10_rename_policy "mkrwan-1" [("pm10", .jnum 12), ("temp", .jnum 20)]
    (by decide) (by decide)).1 12 rfl

/-- C5 counterexample: the empty string is a string device id and the
decoded payload is object-shaped, yet the handler's `!devId` truthiness
guard rejects the message, so decoding fails where the claim says it
succeeds. -/
theorem decode_rejects_empty_devid_cex :
    jchain (jget (JsonVal.jobj [("end_device_ids", .jobj [("device_id", .jstr "")]),
        ("uplink_message", .jobj [("decoded_payload", .jobj [("temp", .jnum 1)])])])
        "end_device_ids") "device_id" = some (.jstr "")
    ∧ typeof (JsonVal.jobj [("temp", JsonVal.jnum 1)]) = "object"
    ∧ processMessage (some (JsonVal.jobj [("end_device_ids", .jobj [("device_id", .jstr "")]),
        ("uplink_message", .jobj [("decoded_payload", .jobj [("temp", .jnum 1)])])])) = none :=
  ⟨rfl, rfl, rfl⟩

/-- C5 (amended): for every payload whose device id is a non-empty string
and whose decoded payload is an object (with pairwise-distinct keys, none
colliding with the device-keyed pm10 name), decoding succeeds and the
point's fields are exactly the numeric-valued top-level entries — a numeric
`pm10` under its device-keyed name, every other numeric key verbatim; all
non-numeric entries are excluded. -/
theorem decode_numeric_fields_amended (j : JsonVal) (d : String) (l : List (String × JsonVal))
    (hdev : jchain (jget j "end_device_ids") "device_id" = some (.jstr d))
    (hdec : jchain (jget j "uplink_message") "decoded_payload" = some (.jobj l))
    (hd : d ≠ "")
    (hnd : (l.map Prod.fst).Nodup)
    (hcoll : pm10FieldName (.jstr d) ∉ l.map Prod.fst) :
    processMessage (some j) = some (buildPoint (.jstr d) (.jobj l))
    ∧ (buildPoint (.jstr d) (.jobj l)).fields = pm10Part (.jstr d) l ++ numericFields l
    ∧ ∀ k, k ∈ (buildPoint (.jstr d) (.jobj l)).fields.map Prod.fst ↔
        ((∃ q, l.lookup "pm10" = some (.jnum q)) ∧ k = pm10FieldName (.jstr d))
        ∨ (k ≠ "pm10" ∧ ∃ q, (k, JsonVal.jnum q) ∈ l) := by
  have htr : truthy (.jstr d) = true := by simp [truthy, hd]
  have hfe : (buildPoint (.jstr d) (.jobj l)).fields = pm10Part (.jstr d) l ++ numericFields l :=
    buildPoint_fields _ _ hnd hcoll
  refine ⟨?_, hfe, ?_⟩
  · simp only [processMessage, hdev, processDevId, htr, hdec, processDecoded]
    simp [truthy, typeof]
  · intro k
    rw [hfe]
    simp only [List.map_append, List.mem_append]
    exact or_congr (mem_pm10Part (.jstr d) l k) (mem_numericFields k l)

/-- C5 witness: the end-to-end payload from device `mkrwan-1` with fields
`pm10 = 11.1`, `temp = 19.4` and a non-numeric `humidity` decodes to the
point built from its decoded payload. -/
theorem decode_numeric_fields_witness :
    processMessage (some (JsonVal.jobj [("end_device_ids", .jobj [("device_id", .jstr "mkrwan-1")]),
        ("uplink_message", .jobj [("decoded_payload",
          .jobj [("pm10", .jnum 11.1), ("temp", .jnum 19.4), ("humidity", .jstr "n/a")])])]))
      = some (buildPoint (.jstr "mkrwan-1")
          (.jobj [("pm10", .jnum 11.1), ("temp", .jnum 19.4), ("humidity", .jstr "n/a")])) :=
  (decode_numeric_fields_amended
    (JsonVal.jobj [("end_device_ids", .jobj [("device_id", .jstr "mkrwan-1")]),
        ("uplink_message", .jobj [("decoded_payload",
          .jobj [("pm10", .jnum 11.1), ("temp", .jnum 19.4), ("humidity", .jstr "n/a")])])])
    "mkrwan-1" [("pm10", .jnum 11.1), ("temp", .jnum 19.4), ("humidity", .jstr "n/a")]
    rfl rfl (by decide) (by decide) (by decide)).1

/-- C6 counterexample: a payload whose device id is the number 5 — present
but not a string — passes the `!devId` truthiness guard, decodes, and its
point is handed to the sink, where the claim says decoding fails and
nothing is written. -/
theorem decode_accepts_numeric_devid_cex :
    jchain (jget (JsonVal.jobj [("end_device_ids", .jobj [("device_id", .jnum 5)]),
        ("uplink_message", .jobj [("decoded_payload", .jobj [("temp", .jnum 1)])])])
        "end_device_ids") "device_id" = some (.jnum 5)
    ∧ typeof (JsonVal.jnum 5) ≠ "string"
    ∧ (step initState (.message 100
        (some (JsonVal.jobj [("end_device_ids", .jobj [("device_id", .jnum 5)]),
          ("uplink_message", .jobj [("decoded_payload", .jobj [("temp", .jnum 1)])])])) false)).2
      = Act.write (buildPoint (.jnum 5) (.jobj [("temp", .jnum 1)])) :=
  ⟨rfl, by decide, rfl⟩

/-- C6 (amended): for every payload whose device id is absent or falsy
(undefined, null, false, 0 or the empty string), and for every payload whose
decoded payload is absent, falsy, or not of runtime type object, decoding
fails and no point is written. -/
theorem decode_guard_failures_amended (j : JsonVal) (s : St) (now : Nat) (sf : Bool)
    (h : failsDevIdGuard j = true ∨ failsDecodedGuard j = true) :
    processMessage (some j) = none
    ∧ (step s (.message now (some j) sf)).2 = Act.none := by
  have hpm : processMessage (some j) = none := by
    simp only [processMessage]
    cases hdev : jchain (jget j "end_device_ids") "device_id" with
    | none => simp only [processDevId]
    | some v =>
        simp only [processDevId]
        by_cases htr : truthy v = true
        · have hdecg : failsDecodedGuard j = true := by
            rcases h with h | h
            · exfalso
              unfold failsDevIdGuard at h
              rw [hdev] at h
              simp [htr] at h
            · exact h
          rw [if_neg (by simp [htr])]
          cases hdec2 : jchain (jget j "uplink_message") "decoded_payload" with
          | none => simp only [processDecoded]
          | some w =>
              simp only [processDecoded]
              unfold failsDecodedGuard at hdecg
              rw [hdec2] at hdecg
              rw [if_pos ?_]
              rcases Bool.or_eq_true_iff.mp hdecg with hg | hg
              · exact Or.inl (by simpa using hg)
              · refine Or.inr ?_
                intro heq
                rw [heq] at hg
                simp at hg
        · rw [if_pos (by simpa using htr)]
  refine ⟨hpm, ?_⟩
  rw [step_message_act, hpm]

/-- C6 witness: a payload with no `end_device_ids` at all fails decoding and
writes nothing. -/
theorem decode_guard_failures_witness :
    processMessage (some (JsonVal.jobj [])) = none
    ∧ (step initState (.message 100 (some (JsonVal.jobj [])) false)).2 = Act.none :=
  decode_guard_failures_amended (JsonVal.jobj []) initState 100 false (Or.inl rfl)

/-- C7: a message event never produces a process exit — its only observable
actions are a sink write or nothing — and a failure at any stage (parse
failure, decode guard, sink-write throw) leaves the message discarded with
no action. -/
theorem message_failures_nonfatal (s : St) (now : Nat) (raw : Option JsonVal) (sf : Bool) :
    (∀ c, (step s (.message now raw sf)).2 ≠ Act.exit c)
    ∧ ((step s (.message now raw sf)).2 = Act.none ∨
        ∃ p, (step s (.message now raw sf)).2 = Act.write p)
    ∧ (processMessage raw = none → (step s (.message now raw sf)).2 = Act.none)
    ∧ (sf = true → (step s (.message now raw sf)).2 = Act.none) := by
  rw [step_message_act]
  cases hp : processMessage raw with
  | none => exact ⟨fun c => by simp, Or.inl rfl, fun _ => rfl, fun _ => rfl⟩
  | some p =>
      cases sf with
      | true =>
          exact ⟨fun c => by simp, Or.inl rfl, fun h => Option.noConfusion h,
            fun _ => rfl⟩
      | false =>
          exact ⟨fun c => by simp, Or.inr ⟨p, rfl⟩, fun h => Option.noConfusion h,
            fun h => Bool.noConfusion h⟩

/-- C7 witness: a message whose payload fails to parse produces no action
(and in particular no exit). -/
theorem message_failures_nonfatal_witness :
    (step initState (.message 5 none false)).2 = Act.none :=
  (message_failures_nonfatal initState 5 none false).2.2.1 rfl

/-- C8: signal-triggered shutdown exits with status 0; the crash handlers
exit with status 1; a watchdog tick either does nothing or exits with
status 1; and every exit of the process arises from one of exactly these
events with exactly these codes. -/
theorem exit_codes (s : St) :
    (step s .sigint).2 = Act.exit 0
    ∧ (step s .sigterm).2 = Act.exit 0
    ∧ (step s .uncaughtException).2 = Act.exit 1
    ∧ (step s .unhandledRejection).2 = Act.exit 1
    ∧ (∀ now, (step s (.watchdogTick now)).2 = Act.none
        ∨ (step s (.watchdogTick now)).2 = Act.exit 1)
    ∧ (∀ e c, (step s e).2 = Act.exit c →
        ((e = .sigint ∨ e = .sigterm) ∧ c = 0)
        ∨ ((e = .uncaughtException ∨ e = .unhandledRejection ∨
            ∃ now, e = .watchdogTick now) ∧ c = 1)) := by
  refine ⟨rfl, rfl, rfl, rfl, ?_, ?_⟩
  · intro now
    simp only [step, watchdogCheck]
    split_ifs
    · exact Or.inr rfl
    · exact Or.inl rfl
  · intro e c h
    cases e with
    | connect now => exact Act.noConfusion h
    | reconnect => exact Act.noConfusion h
    | offline => exact Act.noConfusion h
    | close => exact Act.noConfusion h
    | ended => exact Act.noConfusion h
    | error => exact Act.noConfusion h
    | message now raw sf =>
        rw [step_message_act] at h
        rcases hpr : processMessage raw with _ | p
        · rw [hpr] at h
          exact Act.noConfusion h
        · rw [hpr] at h
          cases sf with
          | true => exact Act.noConfusion h
          | false => exact Act.noConfusion h
    | watchdogTick now =>
        simp only [step, watchdogCheck] at h
        split_ifs at h with hcond
        injection h with h2
        exact Or.inr ⟨Or.inr (Or.inr ⟨now, rfl⟩), h2.symm⟩
    | sigint =>
        injection h with h2
        exact Or.inl ⟨Or.inl rfl, h2.symm⟩
    | sigterm =>
        injection h with h2
        exact Or.inl ⟨Or.inr rfl, h2.symm⟩
    | uncaughtException =>
        injection h with h2
        exact Or.inr ⟨Or.inl rfl, h2.symm⟩
    | unhandledRejection =>
        injection h with h2
        exact Or.inr ⟨Or.inr (Or.inl rfl), h2.symm⟩

/-- C8 witness: SIGINT exits with status 0, and the exit characterization
classifies it as a clean signal shutdown. -/
theorem exit_codes_witness :
    (step initState Event.sigint).2 = Act.exit 0
    ∧ (((Event.sigint = Event.sigint ∨ Event.sigint = Event.sigterm) ∧ 0 = 0)
        ∨ ((Event.sigint = Event.uncaughtException ∨ Event.sigint = Event.unhandledRejection ∨
            ∃ now, Event.sigint = Event.watchdogTick now) ∧ 0 = 1)) :=
  ⟨(exit_codes initState).1, (exit_codes initState).2.2.2.2.2 Event.sigint 0 rfl⟩

/-- C9: the field mapper is pure — the action produced for a message depends
only on its payload and the sink outcome, never on the mutable state or the
current time, so mapping the same uplink twice yields identical points. -/
theorem mapper_state_independent (s₁ s₂ : St) (now₁ now₂ : Nat)
    (raw : Option JsonVal) (sf : Bool) :
    (step s₁ (.message now₁ raw sf)).2 = (step s₂ (.message now₂ raw sf)).2 := by
  rw [step_message_act s₁ now₁, step_message_act s₂ now₂]
